import Mathlib

/-!
Shallow embedding of the FastAPIProject management backend
(services `auth_service.py`, `business_service.py`, `dish_service.py`,
`table_service.py`, the pydantic schema modules, and `core/security.py`),
together with theorems about the behaviour those modules implement.

Conventions:
- UUID primary keys are modelled as `Nat` identifiers.
- Timestamps / dates are `Nat` (points on a discrete UTC timeline);
  datetimes for booking arithmetic are minutes (`date * 1440 + time`).
- Decimal prices are exact rationals.
- SHA-256 hashing is an opaque pure function, passed in as a parameter.
- The database is a Lean list of records; an ORM `save` on a row is an
  id-targeted replacement in that list, matching autocommit behaviour
  (the code opens no transaction anywhere).
-/

namespace FastAPI

/-! ## Python string primitives used by the services

`pyLower` models `str.lower` (ASCII case folding — the only case the
code's normalised data exercises), `pyStrip` models `str.strip`, and
`subStr` models the Python substring test `needle in hay`. -/

/-- Model of Python `str.lower` (character-wise lowering). -/
def pyLower (s : String) : String :=
  String.mk (s.toList.map Char.toLower)

/-- Model of Python `str.strip` (drop leading and trailing whitespace). -/
def pyStrip (s : String) : String :=
  String.mk (((s.toList.dropWhile Char.isWhitespace).reverse.dropWhile
    Char.isWhitespace).reverse)

/-- Does list `p` occur at the head of the second list. -/
def startsList : List Char → List Char → Bool
  | [], _ => true
  | _ :: _, [] => false
  | a :: as, b :: bs => a = b && startsList as bs

/-- Does list `p` occur contiguously anywhere in the second list
(Python `p in l` for strings). -/
def subList (p : List Char) : List Char → Bool
  | [] => p.isEmpty
  | c :: cs => startsList p (c :: cs) || subList p cs

/-- Python `needle in hay` on strings: contiguous substring test. -/
def subStr (needle hay : String) : Bool :=
  subList needle.toList hay.toList

theorem startsList_refl (l : List Char) : startsList l l = true := by
  induction l with
  | nil => rfl
  | cons a as ih => simp [startsList, ih]

theorem subList_refl (l : List Char) : subList l l = true := by
  cases l with
  | nil => rfl
  | cons c cs => simp [subList, startsList_refl]

theorem subStr_refl (s : String) : subStr s s = true := subList_refl _

theorem subList_nil_of_ne (p : List Char) (h : p ≠ []) : subList p [] = false := by
  simp [subList, List.isEmpty_iff, h]

/-! ## `core/security.py` — phone normalization (claim C10) -/

/-- The character class stripped by `normalize_phone` and `is_valid_phone`:
the regex `[\s\-\(\)]` (whitespace, hyphen, parentheses). -/
def phoneStripChar (c : Char) : Bool :=
  c.isWhitespace || c = '-' || c = '(' || c = ')'

/-- The `re.sub` cleaning step of `normalize_phone`: remove every
whitespace, hyphen and parenthesis character. -/
def phoneClean (s : String) : List Char :=
  s.toList.filter (fun c => !phoneStripChar c)

/-- `core/security.py::normalize_phone`: strip `[\s\-\(\)]`, then prefix
`+` if the result does not already start with `+`. -/
def normalize_phone (phone : String) : String :=
  if (phoneClean phone).head? = some '+' then String.mk (phoneClean phone)
  else String.mk ('+' :: phoneClean phone)

theorem phoneClean_mk (l : List Char) :
    phoneClean (String.mk l) = l.filter (fun c => !phoneStripChar c) := rfl

theorem phoneClean_clean (s : String) :
    (phoneClean s).filter (fun c => !phoneStripChar c) = phoneClean s := by
  refine List.filter_eq_self.mpr (fun x hx => ?_)
  simp only [phoneClean] at hx
  exact List.of_mem_filter (p := fun c => !phoneStripChar c) hx

/-- The output of `normalize_phone` is a `+` followed by characters that the
cleaning step leaves unchanged. -/
theorem normalize_phone_shape (s : String) :
    ∃ l, normalize_phone s = String.mk ('+' :: l) ∧
      l.filter (fun c => !phoneStripChar c) = l := by
  unfold normalize_phone
  by_cases h : (phoneClean s).head? = some '+'
  · rw [if_pos h]
    cases hl : phoneClean s with
    | nil => rw [hl] at h; simp at h
    | cons c cs =>
      have hc : c = '+' := by rw [hl] at h; simpa using h
      subst hc
      refine ⟨cs, rfl, ?_⟩
      have hclean := phoneClean_clean s
      rw [hl, List.filter_cons_of_pos (by decide)] at hclean
      exact (List.cons.injEq _ _ _ _ ▸ hclean).2
  · rw [if_neg h]
    exact ⟨phoneClean s, rfl, phoneClean_clean s⟩

/-- `normalize_phone` fixes any string of the shape its output has. -/
theorem normalize_phone_fixes (l : List Char)
    (hl : l.filter (fun c => !phoneStripChar c) = l) :
    normalize_phone (String.mk ('+' :: l)) = String.mk ('+' :: l) := by
  unfold normalize_phone
  have h2 : phoneClean (String.mk ('+' :: l)) = '+' :: l := by
    rw [phoneClean_mk, List.filter_cons_of_pos (by decide), hl]
  rw [h2]
  simp

/-- C10 (confirmed): phone normalization is idempotent — for every input
string, applying `normalize_phone` to its own output returns that output
unchanged, because the output contains none of the stripped characters and
already starts with `+`. -/
theorem C10_normalize_phone_idempotent (s : String) :
    normalize_phone (normalize_phone s) = normalize_phone s := by
  obtain ⟨l, heq, hfil⟩ := normalize_phone_shape s
  rw [heq, normalize_phone_fixes l hfil]

/-! ## Data model (`shared/models`, `app/models`)

Records mirror the declarative ORM schema; only columns the verified
operations touch are carried. -/

inductive TableStatus
  | available
  | booked
  | occupied
deriving DecidableEq

structure Table where
  id : Nat
  business_id : Nat
  table_number : Nat
  capacity : Nat
  floor : Int
  status : TableStatus
  is_active : Bool
deriving DecidableEq

structure TableBooking where
  id : Nat
  table_id : Nat
  tg_user_id : Nat
  guest_name : String
  num_guests : Nat
  booking_date : Nat
  booking_time : Nat
  duration_minutes : Nat
  is_cancelled : Bool
deriving DecidableEq

structure Business where
  id : Nat
  owner_id : Nat
  name : String
  description : String
  telegram_bot_token : String
  is_active : Bool
deriving DecidableEq

structure Session where
  id : Nat
  user_id : Nat
  session_token_hash : String
  expires_at : Nat
deriving DecidableEq

structure VerificationCode where
  id : Nat
  contact : String
  contact_type : String
  code_hash : String
  expires_at : Nat
  attempts : Nat
  is_used : Bool
  created_at : Nat
deriving DecidableEq

structure Dish where
  id : Nat
  business_id : Nat
  title : String
  description : String
  priceCents : Nat
  is_available : Bool
  tags : List String
  category : Option String
  cuisine : Option String
  ingredients : List String
  allergens : List String
deriving DecidableEq

/-- An ORM `row.save()`: replace the row with the same primary key. -/
def saveTable (store : List Table) (t : Table) : List Table :=
  store.map (fun u => if u.id = t.id then t else u)

/-! ## `app/schemas/dish.py` — price validation (claim C7) -/

/-- The pydantic field pattern `^\d+(\.\d{1,2})?$` on the price string:
one or more digits, optionally followed by a dot and one or two digits. -/
def priceMatches (s : String) : Bool :=
  let l := s.toList
  let intPart := l.takeWhile Char.isDigit
  let rest := l.dropWhile Char.isDigit
  !intPart.isEmpty &&
    (rest.isEmpty ||
      (rest.head? = some '.' && !rest.tail.isEmpty &&
        decide (rest.tail.length ≤ 2) && rest.tail.all Char.isDigit))

/-- Numeric value of a digit list, most significant digit first. -/
def digitsVal (l : List Char) : Nat :=
  l.foldl (fun a c => a * 10 + (c.toNat - 48)) 0

/-- `Decimal(value)` of a pattern-matching price string: the integer part
plus the fractional digits scaled by a power of ten. -/
def priceVal (s : String) : ℚ :=
  let l := s.toList
  let ip := l.takeWhile Char.isDigit
  let rest := l.dropWhile Char.isDigit
  match rest with
  | '.' :: fs => (digitsVal ip : ℚ) + (digitsVal fs : ℚ) / ((10 : ℚ) ^ fs.length)
  | _ => (digitsVal ip : ℚ)

/-- `DishCreateSchema.validate_price` / `DishUpdateSchema.validate_price`
together with the field's regex constraint: the string must match the
pattern, and `Decimal(value)` must be strictly positive and at most
`Decimal("9999999.99")`. -/
def validate_price (s : String) : Bool :=
  priceMatches s && decide ((0 : ℚ) < priceVal s) &&
    decide (priceVal s ≤ (9999999.99 : ℚ))

theorem priceVal_zero_str : priceVal "0.00" = 0 := by
  have h1 : priceVal "0.00" = (digitsVal ['0'] : ℚ) +
      (digitsVal ['0', '0'] : ℚ) / ((10 : ℚ) ^ (['0', '0'].length)) := rfl
  have h3 : digitsVal ['0'] = 0 := by decide
  have h4 : digitsVal ['0', '0'] = 0 := by decide
  rw [h1, h3, h4]
  norm_num

theorem priceVal_ten_million : priceVal "10000000.00" = 10000000 := by
  have h1 : priceVal "10000000.00" =
      (digitsVal ['1', '0', '0', '0', '0', '0', '0', '0'] : ℚ) +
        (digitsVal ['0', '0'] : ℚ) / ((10 : ℚ) ^ (['0', '0'].length)) := rfl
  have h3 : digitsVal ['1', '0', '0', '0', '0', '0', '0', '0'] = 10000000 := by
    decide
  have h4 : digitsVal ['0', '0'] = 0 := by decide
  rw [h1, h3, h4]
  norm_num

theorem priceVal_650_50 : priceVal "650.50" = 1301 / 2 := by
  have h1 : priceVal "650.50" = (digitsVal ['6', '5', '0'] : ℚ) +
      (digitsVal ['5', '0'] : ℚ) / ((10 : ℚ) ^ (['5', '0'].length)) := rfl
  have h3 : digitsVal ['6', '5', '0'] = 650 := by decide
  have h4 : digitsVal ['5', '0'] = 50 := by decide
  rw [h1, h3, h4]
  norm_num

/-- C7 (confirmed): a price string is accepted iff it matches
`^\d+(\.\d{1,2})?$` and its decimal value lies in `(0, 9999999.99]`;
in particular `"0.00"` and `"10000000.00"` are rejected while `"650.50"`
is accepted. -/
theorem C7_price_validation :
    validate_price "0.00" = false ∧ validate_price "10000000.00" = false ∧
      validate_price "650.50" = true ∧
      ∀ s, validate_price s = true ↔
        (priceMatches s = true ∧ 0 < priceVal s ∧ priceVal s ≤ (9999999.99 : ℚ)) := by
  refine ⟨?_, ?_, ?_, fun s => ?_⟩
  · simp [validate_price, priceVal_zero_str]
  · have hq : ¬ ((10000000 : ℚ) ≤ (9999999.99 : ℚ)) := by norm_num
    simp [validate_price, priceVal_ten_million, hq]
  · have hm : priceMatches "650.50" = true := by decide
    have hp : (0 : ℚ) < 1301 / 2 := by norm_num
    have hq : (1301 / 2 : ℚ) ≤ (9999999.99 : ℚ) := by norm_num
    simp [validate_price, hm, priceVal_650_50, hp, hq]
  · simp [validate_price, Bool.and_eq_true, decide_eq_true_eq, and_assoc]

/-! ## `app/services/auth_service.py::logout` (claim C8) -/

/-- `AuthService.logout`: hash the presented token, fetch the session with
that hash (`get_or_none` on the unique `session_token_hash` column), and
delete that row (deletion is by primary key) if one exists; otherwise do
nothing. -/
def logout (hashFn : String → String) (sessions : List Session)
    (token : String) : List Session :=
  match sessions.find? (fun s => s.session_token_hash == hashFn token) with
  | some s => sessions.filter (fun u => u.id != s.id)
  | none => sessions

theorem logout_of_find_some (hashFn : String → String)
    (sessions : List Session) (token : String) (s : Session)
    (hfind : sessions.find?
      (fun s => s.session_token_hash == hashFn token) = some s) :
    logout hashFn sessions token = sessions.filter (fun u => u.id != s.id) := by
  unfold logout
  rw [hfind]

theorem logout_of_find_none (hashFn : String → String)
    (sessions : List Session) (token : String)
    (hfind : sessions.find?
      (fun s => s.session_token_hash == hashFn token) = none) :
    logout hashFn sessions token = sessions := by
  unfold logout
  rw [hfind]

/-- C8 (confirmed): logout deletes exactly the session whose stored hash is
the hash of the token (no error when none exists), leaves sessions with
other hashes in place, and is idempotent. Hypotheses: primary keys are
unique, and the unique column constraint on `session_token_hash` holds. -/
theorem C8_logout_idempotent (hashFn : String → String)
    (sessions : List Session) (token : String)
    (hids : (sessions.map (fun s => s.id)).Nodup)
    (huniq : (sessions.filter
      (fun s => s.session_token_hash == hashFn token)).length ≤ 1) :
    (∀ u ∈ logout hashFn sessions token,
        u ∈ sessions ∧ u.session_token_hash ≠ hashFn token) ∧
      (∀ u ∈ sessions, u.session_token_hash ≠ hashFn token →
        u ∈ logout hashFn sessions token) ∧
      logout hashFn (logout hashFn sessions token) token =
        logout hashFn sessions token := by
  have hinj := List.inj_on_of_nodup_map hids
  have key : ∀ u ∈ logout hashFn sessions token,
      u ∈ sessions ∧ u.session_token_hash ≠ hashFn token := by
    intro u hu
    cases hfind : sessions.find? (fun s => s.session_token_hash == hashFn token) with
    | none =>
      rw [logout_of_find_none _ _ _ hfind] at hu
      have hnone := List.find?_eq_none.mp hfind u hu
      simp only [beq_iff_eq] at hnone
      exact ⟨hu, hnone⟩
    | some s =>
      rw [logout_of_find_some _ _ _ _ hfind] at hu
      have hmem := List.mem_of_mem_filter hu
      have hne : (u.id != s.id) = true :=
        List.of_mem_filter (p := fun (u : Session) => u.id != s.id) hu
      refine ⟨hmem, fun hhash => ?_⟩
      have hs_mem : s ∈ sessions := List.mem_of_find?_eq_some hfind
      have hs_hash : s.session_token_hash = hashFn token := by
        have := List.find?_some hfind
        simpa [beq_iff_eq] using this
      have hu_in : u ∈ sessions.filter
          (fun s => s.session_token_hash == hashFn token) :=
        List.mem_filter.mpr ⟨hmem, by simp [hhash]⟩
      have hs_in : s ∈ sessions.filter
          (fun s => s.session_token_hash == hashFn token) :=
        List.mem_filter.mpr ⟨hs_mem, by simp [hs_hash]⟩
      have hus : u = s := by
        cases hfl : sessions.filter
            (fun s => s.session_token_hash == hashFn token) with
        | nil => rw [hfl] at hu_in; exact absurd hu_in (List.not_mem_nil u)
        | cons a as =>
          have hlen : as.length = 0 := by
            rw [hfl] at huniq
            simp only [List.length_cons] at huniq
            omega
          have has : as = [] := List.length_eq_zero.mp hlen
          subst has
          rw [hfl] at hu_in hs_in
          rw [List.mem_singleton.mp hu_in, List.mem_singleton.mp hs_in]
      subst hus
      simp at hne
  refine ⟨key, ?_, ?_⟩
  · intro u hu hhash
    cases hfind : sessions.find? (fun s => s.session_token_hash == hashFn token) with
    | none => rw [logout_of_find_none _ _ _ hfind]; exact hu
    | some s =>
      rw [logout_of_find_some _ _ _ _ hfind]
      refine List.mem_filter.mpr ⟨hu, ?_⟩
      have hs_mem : s ∈ sessions := List.mem_of_find?_eq_some hfind
      have hs_hash : s.session_token_hash = hashFn token := by
        have := List.find?_some hfind
        simpa [beq_iff_eq] using this
      have hne : u ≠ s := fun h => hhash (h ▸ hs_hash)
      have : u.id ≠ s.id := fun h => hne (hinj hu hs_mem h)
      simpa using this
  · have hnone : (logout hashFn sessions token).find?
        (fun s => s.session_token_hash == hashFn token) = none := by
      refine List.find?_eq_none.mpr (fun u hu => ?_)
      have := (key u hu).2
      simpa using this
    exact logout_of_find_none _ _ _ hnone

/-- C8 witness: a concrete two-session store with one matching session —
double logout equals single logout and the other session survives. -/
theorem C8_logout_idempotent_witness :
    (∀ u ∈ logout (fun t => t ++ "#")
        [{ id := 1, user_id := 5, session_token_hash := "tok#", expires_at := 9 },
         { id := 2, user_id := 6, session_token_hash := "other", expires_at := 9 }] "tok",
        u ∈ [({ id := 1, user_id := 5, session_token_hash := "tok#", expires_at := 9 } : Session),
             { id := 2, user_id := 6, session_token_hash := "other", expires_at := 9 }] ∧
          u.session_token_hash ≠ "tok" ++ "#") ∧
      (∀ u ∈ [({ id := 1, user_id := 5, session_token_hash := "tok#", expires_at := 9 } : Session),
              { id := 2, user_id := 6, session_token_hash := "other", expires_at := 9 }],
        u.session_token_hash ≠ "tok" ++ "#" →
        u ∈ logout (fun t => t ++ "#")
          [{ id := 1, user_id := 5, session_token_hash := "tok#", expires_at := 9 },
           { id := 2, user_id := 6, session_token_hash := "other", expires_at := 9 }] "tok") ∧
      logout (fun t => t ++ "#")
          (logout (fun t => t ++ "#")
            [{ id := 1, user_id := 5, session_token_hash := "tok#", expires_at := 9 },
             { id := 2, user_id := 6, session_token_hash := "other", expires_at := 9 }] "tok") "tok" =
        logout (fun t => t ++ "#")
          [{ id := 1, user_id := 5, session_token_hash := "tok#", expires_at := 9 },
           { id := 2, user_id := 6, session_token_hash := "other", expires_at := 9 }] "tok" :=
  C8_logout_idempotent (fun t => t ++ "#")
    [{ id := 1, user_id := 5, session_token_hash := "tok#", expires_at := 9 },
     { id := 2, user_id := 6, session_token_hash := "other", expires_at := 9 }] "tok"
    (by decide) (by decide)

/-! ## `app/services/table_service.py::create_table` (claim C9) -/

/-- `TableCreateSchema` (`app/schemas/table.py`): `table_number` and
`capacity` (positive) plus a `floor` field defaulting to 1. -/
structure TableCreateSchema where
  table_number : Nat
  capacity : Nat
  floor : Int
deriving DecidableEq

inductive TableError
  | businessNotFound
  | accessDenied
  | duplicateNumber
deriving DecidableEq

/-- `TableService.create_table`: look up the business, check ownership and
per-business table-number uniqueness, then call `Table.create` passing only
`business_id`, `table_number` and `capacity`; the ORM column defaults
`floor = 1`, `status = available`, `is_active = true`
(`shared/models/table.py`) fill the remaining columns. -/
def create_table (businesses : List Business) (tables : List Table)
    (business_id : Nat) (data : TableCreateSchema) (user_id : Nat)
    (newId : Nat) : Except TableError Table :=
  match businesses.find? (fun b => b.id == business_id) with
  | none => .error .businessNotFound
  | some b =>
    if b.owner_id ≠ user_id then .error .accessDenied
    else if (tables.find? (fun t => t.business_id == business_id &&
        t.table_number == data.table_number)).isSome then
      .error .duplicateNumber
    else .ok { id := newId, business_id := business_id,
               table_number := data.table_number, capacity := data.capacity,
               floor := 1, status := .available, is_active := true }

/-- C9 (confirmed): a successful table create ignores the schema's `floor`
value — the created row always has `floor = 1`, because the service passes
only `business_id`, `table_number` and `capacity` to the model and the
column default applies. -/
theorem C9_create_table_floor_default (businesses : List Business)
    (tables : List Table) (business_id user_id newId : Nat)
    (data : TableCreateSchema) (b : Business)
    (hb : businesses.find? (fun b => b.id == business_id) = some b)
    (howner : b.owner_id = user_id)
    (hdup : tables.find? (fun t => t.business_id == business_id &&
      t.table_number == data.table_number) = none) :
    ∃ t, create_table businesses tables business_id data user_id newId =
        .ok t ∧ t.floor = 1 ∧ t.table_number = data.table_number ∧
        t.capacity = data.capacity := by
  have hres : create_table businesses tables business_id data user_id newId =
      .ok { id := newId, business_id := business_id,
            table_number := data.table_number, capacity := data.capacity,
            floor := 1, status := .available, is_active := true } := by
    unfold create_table
    rw [hb]
    simp [howner, hdup]
  exact ⟨_, hres, rfl, rfl, rfl⟩

/-- C9 witness: with a concrete business and a create request asking for
`floor = 7`, the created table has `floor = 1`. -/
theorem C9_create_table_floor_default_witness :
    ∃ t, create_table
        [{ id := 1, owner_id := 10, name := "n", description := "d",
           telegram_bot_token := "tok", is_active := true }] []
        1 { table_number := 2, capacity := 4, floor := 7 } 10 100 =
        .ok t ∧ t.floor = 1 ∧ t.table_number = 2 ∧ t.capacity = 4 :=
  C9_create_table_floor_default _ _ 1 10 100
    { table_number := 2, capacity := 4, floor := 7 }
    { id := 1, owner_id := 10, name := "n", description := "d",
      telegram_bot_token := "tok", is_active := true }
    (by decide) rfl rfl

/-! ## `app/services/auth_service.py` — verify code and login (claims C5, C6)

`Session` rows also capture `user_agent` / `ip_address`; those two free-form
columns are not read by any verified property and are omitted from the
record. -/

structure User where
  id : Nat
  email : Option String
  phone : Option String
  is_active : Bool
  is_verified : Bool
deriving DecidableEq

inductive AuthError
  | invalidVerificationCode
  | verificationCodeExpired
  | tooManyAttempts
  | codeAlreadyUsed
deriving DecidableEq

/-- The `order_by('-created_at')` ordering: most recently created first. -/
def createdDesc (a b : VerificationCode) : Prop :=
  b.created_at ≤ a.created_at

instance : DecidableRel createdDesc := fun a b =>
  Nat.decLe b.created_at a.created_at

instance : IsTotal VerificationCode createdDesc :=
  ⟨fun a b => le_total b.created_at a.created_at⟩

instance : IsTrans VerificationCode createdDesc :=
  ⟨fun _ _ _ h1 h2 => le_trans h2 h1⟩

/-- Rows returned in `-created_at` order (a stable sort, as the database
would order the result set). -/
def sortByCreatedDesc (codes : List VerificationCode) : List VerificationCode :=
  codes.insertionSort createdDesc

/-- The lookup in `verify_code_and_login`:
`VerificationCode.filter(contact=..., code_hash=...).order_by('-created_at').first()`. -/
def findVerification (codes : List VerificationCode)
    (contact codeHash : String) : Option VerificationCode :=
  (sortByCreatedDesc (codes.filter
    (fun c => c.contact == contact && c.code_hash == codeHash))).head?

/-- The rows targeted by `AuthService._increment_failed_attempts`:
`filter(contact=..., is_used=False).order_by('-created_at').limit(5)`. -/
def incrementTargets (codes : List VerificationCode) (contact : String) :
    List VerificationCode :=
  (sortByCreatedDesc (codes.filter
    (fun c => c.contact == contact && c.is_used == false))).take 5

/-- `AuthService._increment_failed_attempts`: each targeted row gets
`attempts += 1` and is saved (an id-targeted update). -/
def incrementFailedAttempts (codes : List VerificationCode)
    (contact : String) : List VerificationCode :=
  let ids := (incrementTargets codes contact).map (fun c => c.id)
  codes.map (fun c =>
    if c.id ∈ ids then { c with attempts := c.attempts + 1 } else c)

/-- `AuthService._get_or_create_user`: resolve the user by email or phone
depending on the contact type, creating a pre-verified user when absent. -/
def getOrCreateUser (users : List User) (contact contact_type : String)
    (newUserId : Nat) : User × List User :=
  if contact_type == "email" then
    match users.find? (fun u => u.email == some contact) with
    | some u => (u, users)
    | none =>
      let u : User := { id := newUserId, email := some contact, phone := none,
                        is_active := true, is_verified := true }
      (u, users ++ [u])
  else
    match users.find? (fun u => u.phone == some contact) with
    | some u => (u, users)
    | none =>
      let u : User := { id := newUserId, email := none, phone := some contact,
                        is_active := true, is_verified := true }
      (u, users ++ [u])

structure AuthState where
  codes : List VerificationCode
  sessions : List Session
  users : List User
deriving DecidableEq

structure VerifyOk where
  token : String
  session : Session
  user : User
  state : AuthState
deriving DecidableEq

/-- `AuthService.verify_code_and_login`. The submitted code arrives here
already hashed (`codeHash`); `token` is the freshly generated session token
and `hashFn` the SHA-256 used for its stored hash; `newSessionId`,
`newUserId` and `sessionExpiry` stand for the generated primary keys and
the computed session expiry. On error the service raises without a write,
except the no-match branch which first increments failed attempts. -/
def verify_code_and_login (st : AuthState) (now : Nat)
    (contact codeHash : String) (hashFn : String → String) (token : String)
    (newSessionId newUserId sessionExpiry : Nat) :
    Except (AuthError × AuthState) VerifyOk :=
  match findVerification st.codes contact codeHash with
  | none =>
    .error (.invalidVerificationCode,
      { st with codes := incrementFailedAttempts st.codes contact })
  | some v =>
    if v.is_used then .error (.codeAlreadyUsed, st)
    else if v.expires_at < now then .error (.verificationCodeExpired, st)
    else if 3 ≤ v.attempts then .error (.tooManyAttempts, st)
    else
      let gu := getOrCreateUser st.users contact v.contact_type newUserId
      let codes2 := st.codes.map
        (fun c => if c.id = v.id then { v with is_used := true } else c)
      let session : Session :=
        { id := newSessionId, user_id := gu.fst.id,
          session_token_hash := hashFn token, expires_at := sessionExpiry }
      .ok { token := token, session := session, user := gu.fst,
            state := { codes := codes2,
                       sessions := st.sessions ++ [session],
                       users := gu.snd } }

theorem verify_of_find_some (st : AuthState) (now : Nat)
    (contact codeHash : String) (hashFn : String → String) (token : String)
    (newSessionId newUserId sessionExpiry : Nat) (v : VerificationCode)
    (hfind : findVerification st.codes contact codeHash = some v) :
    verify_code_and_login st now contact codeHash hashFn token
        newSessionId newUserId sessionExpiry =
      (if v.is_used then .error (.codeAlreadyUsed, st)
       else if v.expires_at < now then .error (.verificationCodeExpired, st)
       else if 3 ≤ v.attempts then .error (.tooManyAttempts, st)
       else
        let gu := getOrCreateUser st.users contact v.contact_type newUserId
        let codes2 := st.codes.map
          (fun c => if c.id = v.id then { v with is_used := true } else c)
        let session : Session :=
          { id := newSessionId, user_id := gu.fst.id,
            session_token_hash := hashFn token, expires_at := sessionExpiry }
        .ok { token := token, session := session, user := gu.fst,
              state := { codes := codes2,
                         sessions := st.sessions ++ [session],
                         users := gu.snd } }) := by
  unfold verify_code_and_login
  rw [hfind]

theorem verify_of_find_none (st : AuthState) (now : Nat)
    (contact codeHash : String) (hashFn : String → String) (token : String)
    (newSessionId newUserId sessionExpiry : Nat)
    (hfind : findVerification st.codes contact codeHash = none) :
    verify_code_and_login st now contact codeHash hashFn token
        newSessionId newUserId sessionExpiry =
      .error (.invalidVerificationCode,
        { st with codes := incrementFailedAttempts st.codes contact }) := by
  unfold verify_code_and_login
  rw [hfind]

/-- C5 (confirmed): when the contact + code-hash lookup finds a stored
code, the failure checks run in the order used / expired / attempts ≥ 3,
and only if all pass is the code marked used and a session appended. In
particular a used-and-expired code fails with CodeAlreadyUsed, and an
unused unexpired code with 3 recorded attempts fails with
TooManyAttempts. -/
theorem C5_verify_check_order (st : AuthState) (now : Nat)
    (contact codeHash : String) (hashFn : String → String) (token : String)
    (newSessionId newUserId sessionExpiry : Nat) (v : VerificationCode)
    (hfind : findVerification st.codes contact codeHash = some v) :
    (v.is_used = true →
      verify_code_and_login st now contact codeHash hashFn token
        newSessionId newUserId sessionExpiry = .error (.codeAlreadyUsed, st)) ∧
    (v.is_used = false → v.expires_at < now →
      verify_code_and_login st now contact codeHash hashFn token
        newSessionId newUserId sessionExpiry =
        .error (.verificationCodeExpired, st)) ∧
    (v.is_used = false → now ≤ v.expires_at → 3 ≤ v.attempts →
      verify_code_and_login st now contact codeHash hashFn token
        newSessionId newUserId sessionExpiry =
        .error (.tooManyAttempts, st)) ∧
    (v.is_used = false → now ≤ v.expires_at → v.attempts < 3 →
      ∃ ok, verify_code_and_login st now contact codeHash hashFn token
          newSessionId newUserId sessionExpiry = .ok ok ∧
        ok.state.codes = st.codes.map
          (fun c => if c.id = v.id then { v with is_used := true } else c) ∧
        ok.state.sessions = st.sessions ++ [ok.session] ∧
        ok.session.session_token_hash = hashFn token) := by
  rw [verify_of_find_some st now contact codeHash hashFn token
    newSessionId newUserId sessionExpiry v hfind]
  refine ⟨fun hu => ?_, fun hu hexp => ?_, fun hu hexp hat => ?_,
    fun hu hexp hat => ?_⟩
  · simp [hu]
  · simp [hu, hexp]
  · simp [hu, Nat.not_lt.mpr hexp, hat]
  · rw [if_neg (by simp [hu]), if_neg (Nat.not_lt.mpr hexp),
      if_neg (Nat.not_le.mpr hat)]
    refine ⟨_, rfl, ?_, ?_, ?_⟩
    · rfl
    · rfl
    · rfl

/-- C5 witness: a code that is both already used and expired fails with
CodeAlreadyUsed (the used check runs first). -/
theorem C5_verify_check_order_witness :
    verify_code_and_login
        { codes := [{ id := 1, contact := "a@b.c", contact_type := "email",
                      code_hash := "H", expires_at := 5, attempts := 0,
                      is_used := true, created_at := 1 }],
          sessions := [], users := [] }
        10 "a@b.c" "H" (fun t => t ++ "#") "tok" 50 60 99 =
      .error (.codeAlreadyUsed,
        { codes := [{ id := 1, contact := "a@b.c", contact_type := "email",
                      code_hash := "H", expires_at := 5, attempts := 0,
                      is_used := true, created_at := 1 }],
          sessions := [], users := [] }) :=
  (C5_verify_check_order
    { codes := [{ id := 1, contact := "a@b.c", contact_type := "email",
                  code_hash := "H", expires_at := 5, attempts := 0,
                  is_used := true, created_at := 1 }],
      sessions := [], users := [] }
    10 "a@b.c" "H" (fun t => t ++ "#") "tok" 50 60 99
    { id := 1, contact := "a@b.c", contact_type := "email",
      code_hash := "H", expires_at := 5, attempts := 0,
      is_used := true, created_at := 1 }
    (by decide)).1 rfl

/-- Every row targeted by `_increment_failed_attempts` is a stored row for
the given contact with `is_used = false`. -/
theorem incrementTargets_sub (codes : List VerificationCode) (contact : String) :
    ∀ t ∈ incrementTargets codes contact,
      t ∈ codes ∧ t.contact = contact ∧ t.is_used = false := by
  intro t ht
  have h1 : t ∈ sortByCreatedDesc (codes.filter
      (fun c => c.contact == contact && c.is_used == false)) :=
    List.mem_of_mem_take ht
  have h2 : t ∈ codes.filter
      (fun c => c.contact == contact && c.is_used == false) := by
    simpa [sortByCreatedDesc, List.mem_insertionSort] using h1
  have h3 := List.mem_of_mem_filter h2
  have h4 := List.of_mem_filter h2
  simp only [Bool.and_eq_true, beq_iff_eq] at h4
  exact ⟨h3, h4.1, h4.2⟩

/-- C6 (confirmed): when no stored code matches the contact + code-hash,
the operation fails with InvalidVerificationCode after bumping `attempts`
by exactly one on each of the up-to-5 most recently created unused codes
for the contact; every other row is unchanged, and (under distinct
creation times) every matching row left unbumped is strictly older than
every bumped one. -/
theorem C6_invalid_code_increments (st : AuthState) (now : Nat)
    (contact codeHash : String) (hashFn : String → String) (token : String)
    (newSessionId newUserId sessionExpiry : Nat)
    (hfind : findVerification st.codes contact codeHash = none)
    (hids : (st.codes.map (fun c => c.id)).Nodup)
    (hdist : (st.codes.filter
        (fun c => c.contact == contact && c.is_used == false)).Pairwise
      (fun a b => a.created_at ≠ b.created_at)) :
    verify_code_and_login st now contact codeHash hashFn token
        newSessionId newUserId sessionExpiry =
      .error (.invalidVerificationCode,
        { st with codes := incrementFailedAttempts st.codes contact }) ∧
    (incrementTargets st.codes contact).length ≤ 5 ∧
    (∀ c ∈ st.codes,
      c.id ∈ (incrementTargets st.codes contact).map (fun c => c.id) →
      c.contact = contact ∧ c.is_used = false ∧
        { c with attempts := c.attempts + 1 } ∈
          incrementFailedAttempts st.codes contact) ∧
    (∀ c ∈ st.codes,
      c.id ∉ (incrementTargets st.codes contact).map (fun c => c.id) →
      c ∈ incrementFailedAttempts st.codes contact) ∧
    (∀ t ∈ incrementTargets st.codes contact, ∀ c ∈ st.codes,
      c.contact = contact → c.is_used = false →
      c.id ∉ (incrementTargets st.codes contact).map (fun c => c.id) →
      c.created_at < t.created_at) := by
  have hinj := List.inj_on_of_nodup_map hids
  refine ⟨verify_of_find_none st now contact codeHash hashFn token
    newSessionId newUserId sessionExpiry hfind, ?_, ?_, ?_, ?_⟩
  · exact List.length_take_le 5 _
  · intro c hc hcid
    obtain ⟨t, ht, htid⟩ := List.mem_map.mp hcid
    obtain ⟨htc, htcontact, htused⟩ := incrementTargets_sub st.codes contact t ht
    have hct : c = t := hinj hc htc htid.symm
    subst hct
    refine ⟨htcontact, htused, ?_⟩
    have heq : (fun c => if c.id ∈ (incrementTargets st.codes contact).map
        (fun c => c.id) then { c with attempts := c.attempts + 1 } else c) c =
        { c with attempts := c.attempts + 1 } := by
      simp only [if_pos hcid]
    exact heq ▸ List.mem_map_of_mem _ hc
  · intro c hc hcid
    have heq : (fun c => if c.id ∈ (incrementTargets st.codes contact).map
        (fun c => c.id) then { c with attempts := c.attempts + 1 } else c) c =
        c := by
      simp only [if_neg hcid]
    exact heq ▸ List.mem_map_of_mem _ hc
  · intro t ht c hc hcontact hused hcid
    have hcf : c ∈ st.codes.filter
        (fun c => c.contact == contact && c.is_used == false) :=
      List.mem_filter.mpr ⟨hc, by simp [hcontact, hused]⟩
    have hcsort : c ∈ sortByCreatedDesc (st.codes.filter
        (fun c => c.contact == contact && c.is_used == false)) := by
      simpa [sortByCreatedDesc, List.mem_insertionSort] using hcf
    have hcdrop : c ∈ (sortByCreatedDesc (st.codes.filter
        (fun c => c.contact == contact && c.is_used == false))).drop 5 := by
      have hsplit : c ∈ (sortByCreatedDesc (st.codes.filter
          (fun c => c.contact == contact && c.is_used == false))).take 5 ++
            (sortByCreatedDesc (st.codes.filter
              (fun c => c.contact == contact && c.is_used == false))).drop 5 := by
        rw [List.take_append_drop]
        exact hcsort
      rcases List.mem_append.mp hsplit with hin | hin
      · exact absurd (List.mem_map_of_mem _ hin) hcid
      · exact hin
    have hsorted : (sortByCreatedDesc (st.codes.filter
        (fun c => c.contact == contact && c.is_used == false))).Sorted
        createdDesc := List.sorted_insertionSort createdDesc _
    have hle : createdDesc t c :=
      List.Sorted.rel_of_mem_take_of_mem_drop hsorted ht hcdrop
    have htf : t ∈ st.codes.filter
        (fun c => c.contact == contact && c.is_used == false) := by
      have h5 : t ∈ (sortByCreatedDesc (st.codes.filter
          (fun c => c.contact == contact && c.is_used == false))).take 5 := ht
      have := List.mem_of_mem_take h5
      simpa [sortByCreatedDesc, List.mem_insertionSort] using this
    have hne : c ≠ t := by
      intro h
      exact hcid (h ▸ List.mem_map_of_mem _ ht)
    have hcreated : c.created_at ≠ t.created_at :=
      List.Pairwise.forall (fun _ _ h => Ne.symm h) hdist hcf htf hne
    exact lt_of_le_of_ne hle hcreated

/-- C6 witness: two stored unused codes for the contact, a submitted hash
matching neither — the call fails with InvalidVerificationCode and applies
the attempts bump. -/
theorem C6_invalid_code_increments_witness :
    verify_code_and_login
        { codes := [{ id := 1, contact := "x", contact_type := "phone",
                      code_hash := "A", expires_at := 99, attempts := 0,
                      is_used := false, created_at := 1 },
                    { id := 2, contact := "x", contact_type := "phone",
                      code_hash := "B", expires_at := 99, attempts := 0,
                      is_used := false, created_at := 2 }],
          sessions := [], users := [] }
        10 "x" "H" (fun t => t ++ "#") "tok" 50 60 99 =
      .error (.invalidVerificationCode,
        { codes := incrementFailedAttempts
            [{ id := 1, contact := "x", contact_type := "phone",
               code_hash := "A", expires_at := 99, attempts := 0,
               is_used := false, created_at := 1 },
             { id := 2, contact := "x", contact_type := "phone",
               code_hash := "B", expires_at := 99, attempts := 0,
               is_used := false, created_at := 2 }] "x",
          sessions := [], users := [] }) :=
  (C6_invalid_code_increments
    { codes := [{ id := 1, contact := "x", contact_type := "phone",
                  code_hash := "A", expires_at := 99, attempts := 0,
                  is_used := false, created_at := 1 },
                { id := 2, contact := "x", contact_type := "phone",
                  code_hash := "B", expires_at := 99, attempts := 0,
                  is_used := false, created_at := 2 }],
      sessions := [], users := [] }
    10 "x" "H" (fun t => t ++ "#") "tok" 50 60 99
    (by decide) (by decide) (by decide)).1

/-! ## `app/services/table_service.py::book_table` (claim C4) -/

inductive BookError
  | tableNotFound
  | capacityExceeded
  | tgUserNotFound
  | conflict
deriving DecidableEq

/-- `TableBookingCreateSchema` fields used by the booking flow (dates are
day indices, times minutes into the day). -/
structure BookingRequest where
  telegram_id : Nat
  guest_name : String
  num_guests : Nat
  booking_date : Nat
  booking_time : Nat
  duration_minutes : Nat
deriving DecidableEq

/-- `datetime.combine(date, time)` on the discrete timeline, in minutes. -/
def combineMinutes (bookingDate bookingTime : Nat) : Nat :=
  bookingDate * 1440 + bookingTime

/-- The half-open interval overlap test from `book_table`: the candidate
interval conflicts with an existing booking unless
`booking_end <= existing_start or booking_start >= existing_end`. -/
def overlapsBooking (req : BookingRequest) (b : TableBooking) : Bool :=
  let ns := combineMinutes req.booking_date req.booking_time
  let ne := ns + req.duration_minutes
  let es := combineMinutes b.booking_date b.booking_time
  let ee := es + b.duration_minutes
  !(decide (ne ≤ es) || decide (ee ≤ ns))

/-- `TableService.book_table`: resolve the table, check capacity, resolve
the TGUser by telegram id, scan the non-cancelled bookings of the same
table and date for an interval overlap, then create the booking and set
the table status to booked. `tgUsers` is the set of known telegram ids;
`newId` the created booking's primary key. -/
def book_table (tables : List Table) (bookings : List TableBooking)
    (tgUsers : List Nat) (table_id : Nat) (req : BookingRequest)
    (newId : Nat) :
    Except BookError (List Table × List TableBooking × TableBooking) :=
  match tables.find? (fun t => t.id == table_id) with
  | none => .error .tableNotFound
  | some table =>
    if table.capacity < req.num_guests then .error .capacityExceeded
    else if !(tgUsers.contains req.telegram_id) then .error .tgUserNotFound
    else
      let sameDate := bookings.filter (fun b => b.table_id == table_id &&
        !b.is_cancelled && b.booking_date == req.booking_date)
      if sameDate.any (overlapsBooking req) then .error .conflict
      else
        let nb : TableBooking :=
          { id := newId, table_id := table_id, tg_user_id := req.telegram_id,
            guest_name := req.guest_name, num_guests := req.num_guests,
            booking_date := req.booking_date,
            booking_time := req.booking_time,
            duration_minutes := req.duration_minutes, is_cancelled := false }
        .ok (saveTable tables { table with status := .booked },
             bookings ++ [nb], nb)

theorem book_table_of_found (tables : List Table)
    (bookings : List TableBooking) (tgUsers : List Nat) (table_id : Nat)
    (req : BookingRequest) (newId : Nat) (table : Table)
    (htable : tables.find? (fun t => t.id == table_id) = some table) :
    book_table tables bookings tgUsers table_id req newId =
      (if table.capacity < req.num_guests then .error .capacityExceeded
       else if !(tgUsers.contains req.telegram_id) then .error .tgUserNotFound
       else
        let sameDate := bookings.filter (fun b => b.table_id == table_id &&
          !b.is_cancelled && b.booking_date == req.booking_date)
        if sameDate.any (overlapsBooking req) then .error .conflict
        else
          let nb : TableBooking :=
            { id := newId, table_id := table_id,
              tg_user_id := req.telegram_id, guest_name := req.guest_name,
              num_guests := req.num_guests,
              booking_date := req.booking_date,
              booking_time := req.booking_time,
              duration_minutes := req.duration_minutes,
              is_cancelled := false }
          .ok (saveTable tables { table with status := .booked },
               bookings ++ [nb], nb)) := by
  unfold book_table
  rw [htable]

/-- The overlap scan succeeds on some row iff a non-cancelled same-table
same-date booking's half-open interval intersects the candidate's. -/
theorem conflict_scan_iff (bookings : List TableBooking) (table_id : Nat)
    (req : BookingRequest) :
    ((bookings.filter (fun b => b.table_id == table_id &&
        !b.is_cancelled && b.booking_date == req.booking_date)).any
      (overlapsBooking req) = true) ↔
      ∃ b ∈ bookings, b.table_id = table_id ∧ b.is_cancelled = false ∧
        b.booking_date = req.booking_date ∧
        combineMinutes b.booking_date b.booking_time <
          combineMinutes req.booking_date req.booking_time +
            req.duration_minutes ∧
        combineMinutes req.booking_date req.booking_time <
          combineMinutes b.booking_date b.booking_time +
            b.duration_minutes := by
  rw [List.any_eq_true]
  constructor
  · rintro ⟨b, hbf, hov⟩
    have hb := List.mem_of_mem_filter hbf
    have hp := List.of_mem_filter hbf
    simp only [Bool.and_eq_true, beq_iff_eq, Bool.not_eq_true'] at hp
    simp only [overlapsBooking, Bool.not_eq_true', Bool.or_eq_false_iff,
      decide_eq_false_iff_not, Nat.not_le] at hov
    exact ⟨b, hb, hp.1.1, hp.1.2, hp.2, hov.1, hov.2⟩
  · rintro ⟨b, hb, htid, hcan, hdate, hov1, hov2⟩
    refine ⟨b, List.mem_filter.mpr ⟨hb, ?_⟩, ?_⟩
    · simp [htid, hcan, hdate]
    · simp only [overlapsBooking, Bool.not_eq_true', Bool.or_eq_false_iff,
        decide_eq_false_iff_not, Nat.not_le]
      exact ⟨hov1, hov2⟩

/-- C4 (confirmed): with an existing table, a known telegram user, and
`num_guests` within capacity, the booking is rejected with Conflict iff
some non-cancelled booking on the same table and date intersects the
candidate interval under the half-open test; when no such intersection
exists the booking row is created and the table status becomes booked (and
a candidate starting exactly at an existing end is accepted). -/
theorem C4_book_table_overlap (tables : List Table)
    (bookings : List TableBooking) (tgUsers : List Nat) (table_id : Nat)
    (req : BookingRequest) (newId : Nat) (table : Table)
    (htable : tables.find? (fun t => t.id == table_id) = some table)
    (hcap : req.num_guests ≤ table.capacity)
    (huser : req.telegram_id ∈ tgUsers) :
    (book_table tables bookings tgUsers table_id req newId =
        .error .conflict ↔
      ∃ b ∈ bookings, b.table_id = table_id ∧ b.is_cancelled = false ∧
        b.booking_date = req.booking_date ∧
        combineMinutes b.booking_date b.booking_time <
          combineMinutes req.booking_date req.booking_time +
            req.duration_minutes ∧
        combineMinutes req.booking_date req.booking_time <
          combineMinutes b.booking_date b.booking_time +
            b.duration_minutes) ∧
    ((¬ ∃ b ∈ bookings, b.table_id = table_id ∧ b.is_cancelled = false ∧
        b.booking_date = req.booking_date ∧
        combineMinutes b.booking_date b.booking_time <
          combineMinutes req.booking_date req.booking_time +
            req.duration_minutes ∧
        combineMinutes req.booking_date req.booking_time <
          combineMinutes b.booking_date b.booking_time +
            b.duration_minutes) →
      ∃ nb, book_table tables bookings tgUsers table_id req newId =
          .ok (saveTable tables { table with status := .booked },
               bookings ++ [nb], nb) ∧
        nb.table_id = table_id ∧ nb.booking_date = req.booking_date ∧
        nb.booking_time = req.booking_time ∧
        nb.duration_minutes = req.duration_minutes ∧
        nb.is_cancelled = false) := by
  rw [book_table_of_found tables bookings tgUsers table_id req newId table
    htable]
  rw [if_neg (Nat.not_lt.mpr hcap)]
  have huser2 : (!(tgUsers.contains req.telegram_id)) ≠ true := by
    simpa using List.elem_eq_true_of_mem huser
  rw [if_neg huser2]
  constructor
  · by_cases hany : ((bookings.filter (fun b => b.table_id == table_id &&
        !b.is_cancelled && b.booking_date == req.booking_date)).any
      (overlapsBooking req) = true)
    · rw [if_pos hany]
      exact iff_of_true rfl ((conflict_scan_iff bookings table_id req).mp hany)
    · simp only [if_neg hany]
      refine iff_of_false (by simp) (fun hp => hany ?_)
      exact (conflict_scan_iff bookings table_id req).mpr hp
  · intro hnone
    have hany : ¬ ((bookings.filter (fun b => b.table_id == table_id &&
        !b.is_cancelled && b.booking_date == req.booking_date)).any
      (overlapsBooking req) = true) := fun h =>
      hnone ((conflict_scan_iff bookings table_id req).mp h)
    rw [if_neg hany]
    refine ⟨_, rfl, ?_, ?_, ?_, ?_, ?_⟩
    · rfl
    · rfl
    · rfl
    · rfl
    · rfl

/-- C4 witness: one existing booking 18:00–20:00; a request starting
exactly at 20:00 does not conflict and is created, with the table marked
booked. -/
theorem C4_book_table_overlap_witness :
    ∃ nb, book_table
        [{ id := 1, business_id := 1, table_number := 1, capacity := 4,
           floor := 1, status := .available, is_active := true }]
        [{ id := 9, table_id := 1, tg_user_id := 77, guest_name := "g",
           num_guests := 2, booking_date := 5, booking_time := 1080,
           duration_minutes := 120, is_cancelled := false }]
        [77] 1
        { telegram_id := 77, guest_name := "h", num_guests := 3,
          booking_date := 5, booking_time := 1200, duration_minutes := 60 }
        10 =
      .ok (saveTable
            [{ id := 1, business_id := 1, table_number := 1, capacity := 4,
               floor := 1, status := .available, is_active := true }]
            { id := 1, business_id := 1, table_number := 1, capacity := 4,
              floor := 1, status := .booked, is_active := true },
           [{ id := 9, table_id := 1, tg_user_id := 77, guest_name := "g",
              num_guests := 2, booking_date := 5, booking_time := 1080,
              duration_minutes := 120, is_cancelled := false }] ++ [nb], nb) ∧
      nb.table_id = 1 ∧ nb.booking_date = 5 ∧ nb.booking_time = 1200 ∧
      nb.duration_minutes = 60 ∧ nb.is_cancelled = false :=
  (C4_book_table_overlap
    [{ id := 1, business_id := 1, table_number := 1, capacity := 4,
       floor := 1, status := .available, is_active := true }]
    [{ id := 9, table_id := 1, tg_user_id := 77, guest_name := "g",
       num_guests := 2, booking_date := 5, booking_time := 1080,
       duration_minutes := 120, is_cancelled := false }]
    [77] 1
    { telegram_id := 77, guest_name := "h", num_guests := 3,
      booking_date := 5, booking_time := 1200, duration_minutes := 60 }
    10
    { id := 1, business_id := 1, table_number := 1, capacity := 4,
      floor := 1, status := .available, is_active := true }
    (by decide) (by decide) (by decide)).2 (by decide)

/-! ## `app/services/dish_service.py::search_dishes` (claim C1) -/

/-- Database `icontains` of an already-lowered keyword against an optional
text column (SQL NULL never matches). -/
def optIContains (field : Option String) (kw : String) : Bool :=
  match field with
  | none => false
  | some v => subStr kw (pyLower v)

/-- The Python truthiness-guarded test
`dish.category and kw in dish.category.lower()` of the in-memory pass. -/
def optTruthyContains (field : Option String) (kw : String) : Bool :=
  match field with
  | none => false
  | some v => (v != "") && subStr kw (pyLower v)

/-- A dish matches the database pass when some normalised keyword appears
as a substring of title, description, category or cuisine (case folded). -/
def dbKeywordMatch (kws : List String) (d : Dish) : Bool :=
  kws.any (fun kw =>
    subStr kw (pyLower d.title) || subStr kw (pyLower d.description) ||
    optIContains d.category kw || optIContains d.cuisine kw)

/-- A dish matches the in-memory pass when some normalised keyword is an
element of the lowered tags / ingredients / allergens lists or a substring
of the text fields. -/
def memKeywordMatch (kws : List String) (d : Dish) : Bool :=
  kws.any (fun kw =>
    (d.tags.map pyLower).contains kw ||
    (d.ingredients.map pyLower).contains kw ||
    (d.allergens.map pyLower).contains kw ||
    subStr kw (pyLower d.title) || subStr kw (pyLower d.description) ||
    optTruthyContains d.category kw || optTruthyContains d.cuisine kw)

/-- Pass 1: the OR-of-icontains database query. An empty keyword list, or
keywords that all strip to empty (an empty `Q()`), leaves the query
unfiltered. -/
def keywordPass1 (keywords : List String) (ds : List Dish) : List Dish :=
  let kws1 := (keywords.map (fun k => pyStrip (pyLower k))).filter
    (fun k => k != "")
  if keywords.isEmpty then ds
  else if kws1.isEmpty then ds
  else ds.filter (dbKeywordMatch kws1)

/-- Pass 2: the in-memory re-filter, run whenever keywords were supplied;
keywords whose bare strip is empty are dropped before normalisation. -/
def keywordPass2 (keywords : List String) (ds : List Dish) : List Dish :=
  let kws2 := (keywords.filter (fun k => pyStrip k != "")).map
    (fun k => pyStrip (pyLower k))
  if keywords.isEmpty then ds
  else ds.filter (memKeywordMatch kws2)

def filterBusiness (business_id : Option Nat) (ds : List Dish) : List Dish :=
  match business_id with
  | none => ds
  | some bid => ds.filter (fun d => d.business_id == bid)

/-- `dish.category and dish.category.lower() in categories_lower`. -/
def categoryKeep (cats : List String) (d : Dish) : Bool :=
  match d.category with
  | none => false
  | some v => (v != "") && (cats.map pyLower).contains (pyLower v)

/-- `dish.cuisine and dish.cuisine.lower() in cuisines_lower`. -/
def cuisineKeep (cs : List String) (d : Dish) : Bool :=
  match d.cuisine with
  | none => false
  | some v => (v != "") && (cs.map pyLower).contains (pyLower v)

/-- `if categories:` — `None` and the empty list (both Python falsy)
disable the filter. -/
def filterCategories (categories : Option (List String)) (ds : List Dish) :
    List Dish :=
  match categories with
  | some (c :: cs) => ds.filter (categoryKeep (c :: cs))
  | _ => ds

def filterCuisines (cuisines : Option (List String)) (ds : List Dish) :
    List Dish :=
  match cuisines with
  | some (c :: cs) => ds.filter (cuisineKeep (c :: cs))
  | _ => ds

def filterAvail (is_available : Option Bool) (ds : List Dish) : List Dish :=
  match is_available with
  | none => ds
  | some b => ds.filter (fun d => d.is_available == b)

def filterPrice (price_max : Option Nat) (ds : List Dish) : List Dish :=
  match price_max with
  | none => ds
  | some pm => ds.filter (fun d => decide (d.priceCents ≤ pm))

/-- `DishService.search_dishes`: the database keyword pass, the in-memory
keyword pass, then the business / categories / cuisines / availability /
price filters in that order. Prices are in hundredths. -/
def search_dishes (keywords : List String) (business_id : Option Nat)
    (categories cuisines : Option (List String))
    (is_available : Option Bool) (price_max : Option Nat)
    (allDishes : List Dish) : List Dish :=
  filterPrice price_max (filterAvail is_available (filterCuisines cuisines
    (filterCategories categories (filterBusiness business_id
      (keywordPass2 keywords (keywordPass1 keywords allDishes))))))

/-- C1 counterexample: a dish tagged `"vegan"` whose title, description,
category and cuisine do not contain `"vegan"` is dropped by the database
pass, so a search for the keyword `"vegan"` does not return it, contrary
to the claim. -/
theorem C1_counterexample :
    "vegan" ∈ (Dish.mk 1 1 "Cake" "tasty thing" 500 true ["vegan"]
      (some "dessert") none [] []).tags ∧
    search_dishes ["vegan"] none none none none none
      [Dish.mk 1 1 "Cake" "tasty thing" 500 true ["vegan"]
        (some "dessert") none [] []] = [] := by
  decide

theorem toList_ne_nil {s : String} (h : s ≠ "") : s.toList ≠ [] := by
  intro hl
  apply h
  cases s with
  | mk data =>
    have hd : data = [] := hl
    subst hd
    rfl

theorem subStr_empty_hay (kw : String) (h : kw ≠ "") :
    subStr kw "" = false := by
  have heq : subStr kw "" = kw.toList.isEmpty := rfl
  cases hkw : kw.toList with
  | nil => exact absurd hkw (toList_ne_nil h)
  | cons c cs => rw [heq, hkw]; rfl

theorem optIContains_eq_some {f : Option String} {kw : String}
    (h : optIContains f kw = true) :
    ∃ v, f = some v ∧ subStr kw (pyLower v) = true := by
  cases f with
  | none => simp [optIContains] at h
  | some v => exact ⟨v, rfl, h⟩

/-- Matching the database pass implies matching the in-memory pass: every
column the query searches is re-checked in memory. -/
theorem dbMatch_imp_memMatch (kw : String) (hk : kw ≠ "") (d : Dish)
    (h : dbKeywordMatch [kw] d = true) : memKeywordMatch [kw] d = true := by
  simp only [dbKeywordMatch, List.any_cons, List.any_nil, Bool.or_false,
    Bool.or_eq_true] at h
  simp only [memKeywordMatch, List.any_cons, List.any_nil, Bool.or_false,
    Bool.or_eq_true]
  rcases h with ((h | h) | h) | h
  · tauto
  · tauto
  · obtain ⟨v, hc, hsub⟩ := optIContains_eq_some h
    have hv : v ≠ "" := by
      intro hv
      subst hv
      rw [show pyLower "" = "" from rfl, subStr_empty_hay kw hk] at hsub
      exact Bool.false_ne_true hsub
    left; right
    rw [hc]
    simp [optTruthyContains, hv, hsub]
  · obtain ⟨v, hc, hsub⟩ := optIContains_eq_some h
    have hv : v ≠ "" := by
      intro hv
      subst hv
      rw [show pyLower "" = "" from rfl, subStr_empty_hay kw hk] at hsub
      exact Bool.false_ne_true hsub
    right
    rw [hc]
    simp [optTruthyContains, hv, hsub]

theorem keywordPass1_single (k : String) (ds : List Dish)
    (hnk : pyStrip (pyLower k) ≠ "") :
    keywordPass1 [k] ds =
      ds.filter (dbKeywordMatch [pyStrip (pyLower k)]) := by
  unfold keywordPass1
  simp [hnk]

theorem keywordPass2_single (k : String) (ds : List Dish)
    (hk : pyStrip k ≠ "") :
    keywordPass2 [k] ds =
      ds.filter (memKeywordMatch [pyStrip (pyLower k)]) := by
  unfold keywordPass2
  simp [hk]

theorem mem_filterPrice_sub (pm : Option Nat) (ds : List Dish) (d : Dish)
    (h : d ∈ filterPrice pm ds) : d ∈ ds := by
  cases pm with
  | none => exact h
  | some v => exact List.mem_of_mem_filter h

theorem mem_filterAvail_sub (av : Option Bool) (ds : List Dish) (d : Dish)
    (h : d ∈ filterAvail av ds) : d ∈ ds := by
  cases av with
  | none => exact h
  | some v => exact List.mem_of_mem_filter h

/-- C1 (amended, proved): a single-keyword search with no other filters
returns a dish iff the normalised keyword matches the *database* pass
(substring of title / description / category / cuisine) — a keyword found
only in the tags list is not returned, because the in-memory tags check
only narrows the database candidate set. A keyword equal to the dish's
(lowercase) category does return it, and a non-empty cuisines filter
excludes every dish whose cuisine is absent or not in the list. -/
theorem C1_search_amended :
    (∀ k ds d, pyStrip k ≠ "" → pyStrip (pyLower k) ≠ "" →
      (d ∈ search_dishes [k] none none none none none ds ↔
        d ∈ ds ∧ dbKeywordMatch [pyStrip (pyLower k)] d = true)) ∧
    (∀ k ds d c, pyStrip k ≠ "" → pyStrip (pyLower k) = c → pyLower c = c →
      c ≠ "" → d.category = some c → d ∈ ds →
      d ∈ search_dishes [k] none none none none none ds) ∧
    (∀ keywords bid cats e es avail pmax ds d,
      d ∈ search_dishes keywords bid cats (some (e :: es)) avail pmax ds →
      cuisineKeep (e :: es) d = true) := by
  have main : ∀ k ds d, pyStrip k ≠ "" → pyStrip (pyLower k) ≠ "" →
      (d ∈ search_dishes [k] none none none none none ds ↔
        d ∈ ds ∧ dbKeywordMatch [pyStrip (pyLower k)] d = true) := by
    intro k ds d hk hnk
    unfold search_dishes
    rw [keywordPass1_single k ds hnk, keywordPass2_single k _ hk]
    show d ∈ (ds.filter (dbKeywordMatch [pyStrip (pyLower k)])).filter
        (memKeywordMatch [pyStrip (pyLower k)]) ↔ _
    simp only [List.mem_filter]
    constructor
    · rintro ⟨⟨hmem, hdb⟩, _⟩
      exact ⟨hmem, hdb⟩
    · rintro ⟨hmem, hdb⟩
      exact ⟨⟨hmem, hdb⟩, dbMatch_imp_memMatch _ hnk d hdb⟩
  refine ⟨main, ?_, ?_⟩
  · intro k ds d c hk hnkc hlow hc hcat hmem
    refine (main k ds d hk (hnkc ▸ hc)).mpr ⟨hmem, ?_⟩
    simp only [dbKeywordMatch, List.any_cons, List.any_nil, Bool.or_false,
      Bool.or_eq_true, hnkc]
    left; right
    rw [hcat]
    simp only [optIContains]
    rw [hlow]
    exact subStr_refl c
  · intro keywords bid cats e es avail pmax ds d h
    unfold search_dishes at h
    have h1 := mem_filterAvail_sub avail _ d (mem_filterPrice_sub pmax _ d h)
    exact List.of_mem_filter (p := cuisineKeep (e :: es)) h1

/-- C1 witness: a search for the keyword equal to the dish's category
returns the dish. -/
theorem C1_search_amended_witness :
    (Dish.mk 1 1 "Cake" "tasty thing" 500 true ["vegan"]
      (some "dessert") none [] []) ∈
      search_dishes ["dessert"] none none none none none
        [Dish.mk 1 1 "Cake" "tasty thing" 500 true ["vegan"]
          (some "dessert") none [] []] :=
  C1_search_amended.2.1 "dessert"
    [Dish.mk 1 1 "Cake" "tasty thing" 500 true ["vegan"]
      (some "dessert") none [] []]
    (Dish.mk 1 1 "Cake" "tasty thing" 500 true ["vegan"]
      (some "dessert") none [] [])
    "dessert" (by decide) (by decide) (by decide) (by decide) rfl
    (List.mem_singleton.mpr rfl)

/-! ## `app/services/business_service.py::update_business` and
`app/schemas/business.py::BusinessUpdateSchema` (claim C3) -/

/-- `BusinessUpdateSchema` (`app/schemas/business.py`): the only fields are
`name`, `description` and `is_active`; `model_config = {"extra": "forbid"}`
rejects any other key — there is no `telegram_bot_token` field. -/
structure BusinessUpdateSchema where
  name : Option String
  description : Option String
  is_active : Option Bool
deriving DecidableEq

/-- The pydantic `extra = "forbid"` gate: a request body whose keys are not
all among the schema's three fields fails validation and never reaches the
service. -/
def businessUpdateKeysValid (keys : List String) : Bool :=
  keys.all (fun f => f == "name" || f == "description" || f == "is_active")

/-- The outbound Telegram Bot API calls the business service can make. -/
inductive BotCall
  | verifyToken (token : String)
  | registerWebhook (token : String) (business_id : Nat)
  | unregisterWebhook (token : String) (business_id : Nat)
deriving DecidableEq

inductive BusinessError
  | notFound
  | accessDenied
deriving DecidableEq

/-- The `name` / `description` partial-update collection of
`update_business` (`update_fields`), applied to the row. -/
def applyNameDesc (data : BusinessUpdateSchema) (b : Business) : Business :=
  let b1 := match data.name with
    | none => b
    | some n => { b with name := n }
  match data.description with
  | none => b1
  | some ds => { b1 with description := ds }

theorem applyNameDesc_token (data : BusinessUpdateSchema) (b : Business) :
    (applyNameDesc data b).telegram_bot_token = b.telegram_bot_token := by
  unfold applyNameDesc
  cases data.name <;> cases data.description <;> rfl

/-- `BusinessService.update_business`: after the ownership check, collect
`name` / `description` updates, then handle the `is_active` toggle —
false→true registers the webhook first and flips the flag only on success;
true→false de-registers and flips; nothing else is touched. `registerOk`
is the Bot Manager's boolean result for webhook registration. The returned
list records the Telegram Bot API calls made, in order. -/
def update_business (data : BusinessUpdateSchema) (b : Business)
    (user_id : Nat) (registerOk : Bool) :
    Except BusinessError (Business × List BotCall) :=
  if b.owner_id ≠ user_id then .error .accessDenied
  else
    let b2 := applyNameDesc data b
    match data.is_active with
    | none => .ok (b2, [])
    | some true =>
      if !b.is_active then
        if registerOk then
          .ok ({ b2 with is_active := true },
               [.registerWebhook b.telegram_bot_token b.id])
        else .ok (b2, [.registerWebhook b.telegram_bot_token b.id])
      else .ok (b2, [])
    | some false =>
      if b.is_active then
        .ok ({ b2 with is_active := false },
             [.unregisterWebhook b.telegram_bot_token b.id])
      else .ok (b2, [])

/-- C3 counterexample: the claim's premise is unsatisfiable and its
conclusion false — a request body supplying `telegram_bot_token` is
rejected by the schema (`extra = "forbid"`), and a concrete owner update
leaves the stored token `"OLDTOKEN"` unchanged while making no token
verification call. -/
theorem C3_counterexample :
    businessUpdateKeysValid ["telegram_bot_token"] = false ∧
    update_business
        { name := some "Nuovo", description := none,
          is_active := some false }
        { id := 1, owner_id := 10, name := "Old", description := "D",
          telegram_bot_token := "OLDTOKEN", is_active := true } 10 true =
      .ok ({ id := 1, owner_id := 10, name := "Nuovo", description := "D",
             telegram_bot_token := "OLDTOKEN", is_active := false },
           [.unregisterWebhook "OLDTOKEN" 1]) := by
  constructor
  · decide
  · rfl

/-- C3 (amended, proved): the update schema has no `telegram_bot_token`
field and forbids extra keys, so no update request can carry a new token;
every successful `update_business` leaves the stored token unchanged,
performs no token verification call, and touches webhooks only for
`is_active` toggles. -/
theorem C3_update_never_changes_token (data : BusinessUpdateSchema)
    (b : Business) (user_id : Nat) (registerOk : Bool) (b2 : Business)
    (calls : List BotCall)
    (h : update_business data b user_id registerOk = .ok (b2, calls)) :
    b2.telegram_bot_token = b.telegram_bot_token ∧
    (∀ c ∈ calls, ∀ tok, c ≠ BotCall.verifyToken tok) ∧
    businessUpdateKeysValid ["telegram_bot_token"] = false := by
  have key : b2.telegram_bot_token = b.telegram_bot_token ∧
      ∀ c ∈ calls, ∀ tok, c ≠ BotCall.verifyToken tok := by
    unfold update_business at h
    by_cases howner : b.owner_id ≠ user_id
    · rw [if_pos howner] at h
      exact absurd h (by simp)
    · rw [if_neg howner] at h
      cases hact : data.is_active with
      | none =>
        rw [hact] at h
        simp only [] at h
        simp only [Except.ok.injEq, Prod.mk.injEq] at h
        obtain ⟨hb2, hcalls⟩ := h
        subst hb2
        subst hcalls
        exact ⟨applyNameDesc_token data b, by simp⟩
      | some bb =>
        cases bb with
        | true =>
          rw [hact] at h
          simp only [] at h
          by_cases hba : (!b.is_active) = true
          · rw [if_pos hba] at h
            cases registerOk with
            | true =>
              rw [if_pos rfl] at h
              simp only [Except.ok.injEq, Prod.mk.injEq] at h
              obtain ⟨hb2, hcalls⟩ := h
              subst hb2
              subst hcalls
              refine ⟨applyNameDesc_token data b, ?_⟩
              intro c hc tok
              simp only [List.mem_singleton] at hc
              subst hc
              simp
            | false =>
              rw [if_neg (by simp)] at h
              simp only [Except.ok.injEq, Prod.mk.injEq] at h
              obtain ⟨hb2, hcalls⟩ := h
              subst hb2
              subst hcalls
              refine ⟨applyNameDesc_token data b, ?_⟩
              intro c hc tok
              simp only [List.mem_singleton] at hc
              subst hc
              simp
          · rw [if_neg hba] at h
            simp only [Except.ok.injEq, Prod.mk.injEq] at h
            obtain ⟨hb2, hcalls⟩ := h
            subst hb2
            subst hcalls
            exact ⟨applyNameDesc_token data b, by simp⟩
        | false =>
          rw [hact] at h
          simp only [] at h
          by_cases hba : b.is_active = true
          · rw [if_pos hba] at h
            simp only [Except.ok.injEq, Prod.mk.injEq] at h
            obtain ⟨hb2, hcalls⟩ := h
            subst hb2
            subst hcalls
            refine ⟨applyNameDesc_token data b, ?_⟩
            intro c hc tok
            simp only [List.mem_singleton] at hc
            subst hc
            simp
          · rw [if_neg hba] at h
            simp only [Except.ok.injEq, Prod.mk.injEq] at h
            obtain ⟨hb2, hcalls⟩ := h
            subst hb2
            subst hcalls
            exact ⟨applyNameDesc_token data b, by simp⟩
  exact ⟨key.1, key.2, by decide⟩

/-- C3 witness: a concrete successful owner update (deactivating the
business) leaves the stored token unchanged and performs no verification
call. -/
theorem C3_update_never_changes_token_witness :
    ({ id := 1, owner_id := 10, name := "Nuovo", description := "D",
       telegram_bot_token := "OLDTOKEN", is_active := false } :
        Business).telegram_bot_token =
      ({ id := 1, owner_id := 10, name := "Old", description := "D",
         telegram_bot_token := "OLDTOKEN", is_active := true } :
          Business).telegram_bot_token ∧
    (∀ c ∈ [BotCall.unregisterWebhook "OLDTOKEN" 1], ∀ tok,
      c ≠ BotCall.verifyToken tok) ∧
    businessUpdateKeysValid ["telegram_bot_token"] = false :=
  C3_update_never_changes_token
    { name := some "Nuovo", description := none, is_active := some false }
    { id := 1, owner_id := 10, name := "Old", description := "D",
      telegram_bot_token := "OLDTOKEN", is_active := true }
    10 true
    { id := 1, owner_id := 10, name := "Nuovo", description := "D",
      telegram_bot_token := "OLDTOKEN", is_active := false }
    [BotCall.unregisterWebhook "OLDTOKEN" 1] rfl

/-! ## `app/services/table_service.py::bulk_update_tables` (claim C2) -/

/-- The `order_by('table_number')` ordering of the bulk operation. -/
def tableNumberLe (a b : Table) : Prop :=
  a.table_number ≤ b.table_number

instance : DecidableRel tableNumberLe := fun a b =>
  Nat.decLe a.table_number b.table_number

def sortByTableNumber (ts : List Table) : List Table :=
  ts.insertionSort tableNumberLe

/-- The per-table check of the shrink path: any non-cancelled booking
dated today or later. -/
def hasActiveBooking (bookings : List TableBooking) (today : Nat)
    (t : Table) : Bool :=
  bookings.any (fun b => b.table_id == t.id && !b.is_cancelled &&
    decide (today ≤ b.booking_date))

/-- One capacity-normalisation step: save the row with the default
capacity when it differs. -/
def capacityStep (default_capacity : Nat) (s : List Table) (t : Table) :
    List Table :=
  if t.capacity ≠ default_capacity then
    saveTable s { t with capacity := default_capacity }
  else s

def capacityFold (default_capacity : Nat) (s : List Table)
    (ts : List Table) : List Table :=
  ts.foldl (capacityStep default_capacity) s

/-- The shrink path's deletion loop: walk the surplus tables in
table-number order; on the first table with a qualifying booking stop with
BadRequest (the store keeps every write already flushed); otherwise soft
delete and continue. Returns (store, deleted count, offending table
number). -/
def deleteLoop (bookings : List TableBooking) (today : Nat) :
    List Table → List Table → Nat → List Table × Nat × Option Nat
  | s, [], del => (s, del, none)
  | s, t :: rest, del =>
    if hasActiveBooking bookings today t then (s, del, some t.table_number)
    else deleteLoop bookings today
      (saveTable s { t with is_active := false }) rest (del + 1)

/-- Result of a bulk resize: the table store after all flushed writes, the
BadRequest payload (offending table number) if raised, and the counters.
`total` is only computed on success. -/
structure BulkOutcome where
  store : List Table
  error : Option Nat
  created : Nat
  updated : Nat
  deleted : Nat
  total : Nat
deriving DecidableEq

/-- `TableService.bulk_update_tables`: load the business's active tables
ordered by table number; grow (normalise capacities then create numbered
continuations), shrink (normalise the kept prefix, then run the deletion
loop over the surplus), or just normalise capacities. `nextId` supplies
primary keys for created rows. -/
def bulk_update_tables (store : List Table) (bookings : List TableBooking)
    (today business_id total_tables default_capacity nextId : Nat) :
    BulkOutcome :=
  let existing := sortByTableNumber (store.filter
    (fun t => t.business_id == business_id && t.is_active))
  let current := existing.length
  if total_tables > current then
    let store1 := capacityFold default_capacity store existing
    let updated := (existing.filter
      (fun t => t.capacity != default_capacity)).length
    let maxNum := (existing.map (fun t => t.table_number)).foldl max 0
    let newTables := (List.range (total_tables - current)).map (fun i =>
      { id := nextId + i, business_id := business_id,
        table_number := maxNum + i + 1, capacity := default_capacity,
        floor := 1, status := TableStatus.available, is_active := true })
    let store2 := store1 ++ newTables
    { store := store2, error := none, created := total_tables - current,
      updated := updated, deleted := 0,
      total := (store2.filter (fun t => t.business_id == business_id &&
        t.is_active)).length }
  else if total_tables < current then
    let kept := existing.take total_tables
    let store1 := capacityFold default_capacity store kept
    let updated := (kept.filter
      (fun t => t.capacity != default_capacity)).length
    let res := deleteLoop bookings today store1
      (existing.drop total_tables) 0
    match res.2.2 with
    | some tn =>
      { store := res.1, error := some tn, created := 0, updated := updated,
        deleted := res.2.1, total := 0 }
    | none =>
      { store := res.1, error := none, created := 0, updated := updated,
        deleted := res.2.1,
        total := (res.1.filter (fun t => t.business_id == business_id &&
          t.is_active)).length }
  else
    let store1 := capacityFold default_capacity store existing
    { store := store1, error := none, created := 0,
      updated := (existing.filter
        (fun t => t.capacity != default_capacity)).length,
      deleted := 0,
      total := (store1.filter (fun t => t.business_id == business_id &&
        t.is_active)).length }

/-- C2 counterexample: five active tables, a future booking on table 5
only; resizing to 3 raises BadRequest naming table 5, but table 4 — a
surplus table without bookings processed before the offending one — has
been soft-deleted by the failed call, so not every previously active table
is still active. -/
theorem C2_counterexample :
    (bulk_update_tables
      [{ id := 101, business_id := 1, table_number := 1, capacity := 4,
         floor := 1, status := .available, is_active := true },
       { id := 102, business_id := 1, table_number := 2, capacity := 4,
         floor := 1, status := .available, is_active := true },
       { id := 103, business_id := 1, table_number := 3, capacity := 4,
         floor := 1, status := .available, is_active := true },
       { id := 104, business_id := 1, table_number := 4, capacity := 4,
         floor := 1, status := .available, is_active := true },
       { id := 105, business_id := 1, table_number := 5, capacity := 4,
         floor := 1, status := .available, is_active := true }]
      [{ id := 1, table_id := 105, tg_user_id := 7, guest_name := "g",
         num_guests := 2, booking_date := 10, booking_time := 0,
         duration_minutes := 60, is_cancelled := false }]
      3 1 3 4 900).error = some 5 ∧
    ((bulk_update_tables
      [{ id := 101, business_id := 1, table_number := 1, capacity := 4,
         floor := 1, status := .available, is_active := true },
       { id := 102, business_id := 1, table_number := 2, capacity := 4,
         floor := 1, status := .available, is_active := true },
       { id := 103, business_id := 1, table_number := 3, capacity := 4,
         floor := 1, status := .available, is_active := true },
       { id := 104, business_id := 1, table_number := 4, capacity := 4,
         floor := 1, status := .available, is_active := true },
       { id := 105, business_id := 1, table_number := 5, capacity := 4,
         floor := 1, status := .available, is_active := true }]
      [{ id := 1, table_id := 105, tg_user_id := 7, guest_name := "g",
         num_guests := 2, booking_date := 10, booking_time := 0,
         duration_minutes := 60, is_cancelled := false }]
      3 1 3 4 900).store.filter (fun t => t.is_active)).map
        (fun t => t.id) = [101, 102, 103, 105] := by
  constructor
  · decide
  · decide

/-- Element-wise effect of the capacity-normalisation fold. -/
def capRep (d : Nat) (ts : List Table) (u : Table) : Table :=
  ts.foldl (fun v t =>
    if t.capacity ≠ d then
      (if v.id = t.id then { t with capacity := d } else v)
    else v) u

/-- Cumulative store effect of the deletion loop's soft deletes. -/
def delApply (ts : List Table) (s : List Table) : List Table :=
  ts.foldl (fun s t => saveTable s { t with is_active := false }) s

/-- Element-wise effect of the deletion loop's soft deletes. -/
def delRep (ts : List Table) (u : Table) : Table :=
  ts.foldl (fun v t =>
    if v.id = t.id then { t with is_active := false } else v) u

theorem capacityFold_eq_map (d : Nat) (ts : List Table) :
    ∀ s, capacityFold d s ts = s.map (capRep d ts) := by
  induction ts with
  | nil =>
    intro s
    show s = s.map (fun u => u)
    simp
  | cons t ts ih =>
    intro s
    have hstep : capacityStep d s t = s.map (fun v =>
        if t.capacity ≠ d then
          (if v.id = t.id then { t with capacity := d } else v)
        else v) := by
      unfold capacityStep saveTable
      by_cases hc : t.capacity ≠ d
      · simp only [if_pos hc]
      · simp only [if_neg hc]
        show s = s.map (fun v => v)
        simp
    show capacityFold d (capacityStep d s t) ts = _
    rw [ih (capacityStep d s t), hstep, List.map_map]
    rfl

theorem delApply_eq_map (ts : List Table) :
    ∀ s, delApply ts s = s.map (delRep ts) := by
  induction ts with
  | nil =>
    intro s
    show s = s.map (fun u => u)
    simp
  | cons t ts ih =>
    intro s
    show delApply ts (saveTable s { t with is_active := false }) = _
    rw [ih, saveTable, List.map_map]
    rfl

theorem deleteLoop_spec (bookings : List TableBooking) (today : Nat) :
    ∀ (toDel s : List Table) (del : Nat),
      deleteLoop bookings today s toDel del =
        (delApply (toDel.takeWhile
            (fun t => !hasActiveBooking bookings today t)) s,
         del + (toDel.takeWhile
            (fun t => !hasActiveBooking bookings today t)).length,
         (toDel.find? (hasActiveBooking bookings today)).map
           (fun t => t.table_number)) := by
  intro toDel
  induction toDel with
  | nil =>
    intro s del
    simp [deleteLoop, delApply]
  | cons t rest ih =>
    intro s del
    by_cases hb : hasActiveBooking bookings today t = true
    · simp only [deleteLoop]
      rw [if_pos hb]
      rw [List.takeWhile_cons, List.find?_cons]
      simp [hb, delApply]
    · simp only [deleteLoop]
      rw [if_neg hb]
      rw [ih (saveTable s { t with is_active := false }) (del + 1)]
      rw [List.takeWhile_cons, List.find?_cons]
      have hb' : (!hasActiveBooking bookings today t) = true := by
        simp [Bool.not_eq_true'] at hb ⊢
        exact hb
      rw [if_pos hb']
      have hbf : hasActiveBooking bookings today t = false := by
        revert hb
        cases hasActiveBooking bookings today t <;> simp
      have hfind : (match hasActiveBooking bookings today t with
          | true => some t
          | false => rest.find? (hasActiveBooking bookings today)) =
          rest.find? (hasActiveBooking bookings today) := by
        rw [hbf]
      refine congrArg₂ Prod.mk ?_ (congrArg₂ Prod.mk ?_ ?_)
      · rfl
      · simp [List.length_cons]
        omega
      · rw [hbf]

theorem capRep_id (d : Nat) (ts : List Table) :
    ∀ u, (capRep d ts u).id = u.id := by
  induction ts with
  | nil => intro u; rfl
  | cons t ts ih =>
    intro u
    show (capRep d ts (if t.capacity ≠ d then
      (if u.id = t.id then { t with capacity := d } else u) else u)).id = u.id
    rw [ih]
    by_cases hc : t.capacity ≠ d
    · rw [if_pos hc]
      by_cases hid : u.id = t.id
      · rw [if_pos hid]
        exact hid.symm
      · rw [if_neg hid]
    · rw [if_neg hc]

theorem capRep_not_mem (d : Nat) (ts : List Table) :
    ∀ u, u.id ∉ ts.map (fun t => t.id) → capRep d ts u = u := by
  induction ts with
  | nil => intro u _; rfl
  | cons t ts ih =>
    intro u hu
    simp only [List.map_cons, List.mem_cons, not_or] at hu
    show capRep d ts (if t.capacity ≠ d then
      (if u.id = t.id then { t with capacity := d } else u) else u) = u
    have hinner : (if t.capacity ≠ d then
        (if u.id = t.id then { t with capacity := d } else u) else u) = u := by
      by_cases hc : t.capacity ≠ d
      · rw [if_pos hc, if_neg hu.1]
      · rw [if_neg hc]
    rw [hinner]
    exact ih u hu.2

theorem capRep_active (d : Nat) (ts : List Table) :
    ∀ u, u.is_active = true → (∀ t ∈ ts, t.is_active = true) →
      (capRep d ts u).is_active = true := by
  induction ts with
  | nil => intro u hu _; exact hu
  | cons t ts ih =>
    intro u hu hts
    show (capRep d ts (if t.capacity ≠ d then
      (if u.id = t.id then { t with capacity := d } else u) else u)).is_active
      = true
    refine ih _ ?_ (fun x hx => hts x (List.mem_cons_of_mem t hx))
    by_cases hc : t.capacity ≠ d
    · rw [if_pos hc]
      by_cases hid : u.id = t.id
      · rw [if_pos hid]
        exact hts t (List.mem_cons_self t ts)
      · rw [if_neg hid]
        exact hu
    · rw [if_neg hc]
      exact hu

theorem delRep_id (ts : List Table) : ∀ u, (delRep ts u).id = u.id := by
  induction ts with
  | nil => intro u; rfl
  | cons t ts ih =>
    intro u
    show (delRep ts (if u.id = t.id then
      { t with is_active := false } else u)).id = u.id
    rw [ih]
    by_cases hid : u.id = t.id
    · rw [if_pos hid]
      exact hid.symm
    · rw [if_neg hid]

theorem delRep_not_mem (ts : List Table) :
    ∀ u, u.id ∉ ts.map (fun t => t.id) → delRep ts u = u := by
  induction ts with
  | nil => intro u _; rfl
  | cons t ts ih =>
    intro u hu
    simp only [List.map_cons, List.mem_cons, not_or] at hu
    show delRep ts (if u.id = t.id then
      { t with is_active := false } else u) = u
    rw [if_neg hu.1]
    exact ih u hu.2

theorem delRep_active (ts : List Table) :
    ∀ u, (delRep ts u).is_active =
      (if u.id ∈ ts.map (fun t => t.id) then false else u.is_active) := by
  induction ts with
  | nil => intro u; simp [delRep]
  | cons t ts ih =>
    intro u
    show (delRep ts (if u.id = t.id then
      { t with is_active := false } else u)).is_active = _
    rw [ih]
    by_cases hid : u.id = t.id
    · rw [if_pos hid]
      by_cases h2 : t.id ∈ ts.map (fun t => t.id)
      · simp [hid, h2]
      · simp [hid, h2]
    · rw [if_neg hid]
      by_cases h2 : u.id ∈ ts.map (fun t => t.id)
      · simp [hid, h2]
      · simp [hid, h2]

/-- C2 (amended, proved): when some surplus table (beyond the kept first
`total_tables`, in table-number order) has a non-cancelled booking dated
today or later, the bulk shrink fails with BadRequest naming the first
such table; the kept tables stay active and so do the surplus tables from
the first offender onward, but the surplus tables without qualifying
bookings that precede the first offender have already been soft-deleted
by the failed call; rows outside the business's active set are
untouched. -/
theorem C2_bulk_shrink_flushed (store : List Table)
    (bookings : List TableBooking)
    (today business_id total_tables default_capacity nextId : Nat)
    (existing kept dropped pre post : List Table)
    (hex : existing = sortByTableNumber (store.filter
      (fun t => t.business_id == business_id && t.is_active)))
    (hkept : kept = existing.take total_tables)
    (hdropped : dropped = existing.drop total_tables)
    (hpre : pre = dropped.takeWhile
      (fun t => !hasActiveBooking bookings today t))
    (hpost : post = dropped.dropWhile
      (fun t => !hasActiveBooking bookings today t))
    (hids : (store.map (fun t => t.id)).Nodup)
    (hlt : total_tables < existing.length) (t0 : Table)
    (hoff : dropped.find? (hasActiveBooking bookings today) = some t0) :
    (bulk_update_tables store bookings today business_id total_tables
        default_capacity nextId).error = some t0.table_number ∧
    (∀ t ∈ kept, ∀ u ∈ (bulk_update_tables store bookings today
        business_id total_tables default_capacity nextId).store,
      u.id = t.id → u.is_active = true) ∧
    (∀ t ∈ pre, ∀ u ∈ (bulk_update_tables store bookings today
        business_id total_tables default_capacity nextId).store,
      u.id = t.id → u.is_active = false) ∧
    (∀ t ∈ post, ∀ u ∈ (bulk_update_tables store bookings today
        business_id total_tables default_capacity nextId).store,
      u.id = t.id → u.is_active = true) ∧
    (∀ u ∈ store, u ∉ existing → u ∈ (bulk_update_tables store bookings
        today business_id total_tables default_capacity nextId).store) := by
  have hbulk : bulk_update_tables store bookings today business_id
      total_tables default_capacity nextId =
      { store := delApply pre (capacityFold default_capacity store kept),
        error := some t0.table_number, created := 0,
        updated := (kept.filter
          (fun t => t.capacity != default_capacity)).length,
        deleted := 0 + pre.length, total := 0 } := by
    unfold bulk_update_tables
    simp only []
    rw [← hex]
    rw [if_neg (by omega), if_pos hlt]
    rw [← hkept, ← hdropped]
    rw [deleteLoop_spec bookings today dropped
      (capacityFold default_capacity store kept) 0]
    simp only []
    rw [hoff]
    simp only [Option.map_some']
    rw [← hpre]
  -- basic facts about the active set of the business
  have hinj := List.inj_on_of_nodup_map hids
  have hstore_nodup : store.Nodup := List.Nodup.of_map _ hids
  have hperm : List.Perm existing (store.filter
      (fun t => t.business_id == business_id && t.is_active)) := by
    rw [hex]
    exact List.perm_insertionSort tableNumberLe _
  have hex_nodup : existing.Nodup :=
    hperm.nodup_iff.mpr (hstore_nodup.sublist (List.filter_sublist store))
  have hex_store : ∀ t ∈ existing, t ∈ store := by
    intro t ht
    exact List.mem_of_mem_filter (hperm.mem_iff.mp ht)
  have hex_active : ∀ t ∈ existing, t.is_active = true := by
    intro t ht
    have := List.of_mem_filter (hperm.mem_iff.mp ht)
    simp only [Bool.and_eq_true] at this
    exact this.2
  have hkept_sub : ∀ t ∈ kept, t ∈ existing := by
    intro t ht
    rw [hkept] at ht
    exact List.take_subset _ _ ht
  have hdropped_sub : ∀ t ∈ dropped, t ∈ existing := by
    intro t ht
    rw [hdropped] at ht
    exact List.drop_subset _ _ ht
  have hpre_sub : ∀ t ∈ pre, t ∈ dropped := by
    intro t ht
    rw [hpre] at ht
    exact (List.takeWhile_sublist _).subset ht
  have hpost_sub : ∀ t ∈ post, t ∈ dropped := by
    intro t ht
    rw [hpost] at ht
    exact (List.dropWhile_sublist _).subset ht
  have hdisj_kd : ∀ a, a ∈ kept → a ∈ dropped → False := by
    intro a ha hd
    rw [hkept] at ha
    rw [hdropped] at hd
    exact List.disjoint_take_drop hex_nodup (le_refl total_tables) ha hd
  have hdisj_pp : ∀ a, a ∈ pre → a ∈ post → False := by
    intro a ha hd
    have hnd : dropped.Nodup := by
      rw [hdropped]
      exact hex_nodup.sublist (List.drop_sublist _ _)
    have hsplit : pre ++ post = dropped := by
      rw [hpre, hpost]
      exact List.takeWhile_append_dropWhile
        (fun t => !hasActiveBooking bookings today t) dropped
    rw [← hsplit] at hnd
    exact List.disjoint_of_nodup_append hnd ha hd
  -- membership in the final store
  have hmem : ∀ u, u ∈ (bulk_update_tables store bookings today business_id
      total_tables default_capacity nextId).store ↔
      ∃ v, v ∈ store ∧ delRep pre (capRep default_capacity kept v) = u := by
    intro u
    rw [hbulk]
    show u ∈ delApply pre (capacityFold default_capacity store kept) ↔ _
    rw [delApply_eq_map, capacityFold_eq_map, List.map_map]
    simp [List.mem_map, Function.comp]
  have hresolve : ∀ t, t ∈ store → ∀ u, u ∈ (bulk_update_tables store
      bookings today business_id total_tables default_capacity nextId).store →
      u.id = t.id → u = delRep pre (capRep default_capacity kept t) := by
    intro t htst u hu hid
    obtain ⟨v, hv, hvu⟩ := (hmem u).mp hu
    have hvid : v.id = t.id := by
      rw [← hid, ← hvu, delRep_id, capRep_id]
    have hvt : v = t := hinj hv htst hvid
    rw [← hvu, hvt]
  -- id exclusion helpers
  have hnot_pre : ∀ t, t ∈ existing → (t ∈ pre → False) →
      t.id ∉ pre.map (fun t => t.id) := by
    intro t htex htnp hmem2
    obtain ⟨p, hp, hpid⟩ := List.mem_map.mp hmem2
    have hp_ex : p ∈ existing := hdropped_sub p (hpre_sub p hp)
    have : p = t := hinj (hex_store p hp_ex) (hex_store t htex) hpid
    exact htnp (this ▸ hp)
  have hnot_kept : ∀ t, t ∈ existing → (t ∈ kept → False) →
      t.id ∉ kept.map (fun t => t.id) := by
    intro t htex htnk hmem2
    obtain ⟨p, hp, hpid⟩ := List.mem_map.mp hmem2
    have hp_ex : p ∈ existing := hkept_sub p hp
    have : p = t := hinj (hex_store p hp_ex) (hex_store t htex) hpid
    exact htnk (this ▸ hp)
  refine ⟨by rw [hbulk], ?_, ?_, ?_, ?_⟩
  · -- kept tables stay active
    intro t ht u hu hid
    have ht_ex : t ∈ existing := hkept_sub t ht
    rw [hresolve t (hex_store t ht_ex) u hu hid]
    rw [delRep_active]
    have hnot : (capRep default_capacity kept t).id ∉
        pre.map (fun t => t.id) := by
      rw [capRep_id]
      exact hnot_pre t ht_ex
        (fun hp => hdisj_kd t ht (hpre_sub t hp))
    rw [if_neg hnot]
    exact capRep_active _ _ t (hex_active t ht_ex)
      (fun x hx => hex_active x (hkept_sub x hx))
  · -- bookingless surplus tables before the offender are soft-deleted
    intro t ht u hu hid
    have ht_dr : t ∈ dropped := hpre_sub t ht
    have ht_ex : t ∈ existing := hdropped_sub t ht_dr
    rw [hresolve t (hex_store t ht_ex) u hu hid]
    have hcapeq : capRep default_capacity kept t = t :=
      capRep_not_mem _ _ t (hnot_kept t ht_ex
        (fun hk => hdisj_kd t hk ht_dr))
    rw [hcapeq, delRep_active]
    rw [if_pos (List.mem_map_of_mem _ ht)]
  · -- the offender and everything after it stay active
    intro t ht u hu hid
    have ht_dr : t ∈ dropped := hpost_sub t ht
    have ht_ex : t ∈ existing := hdropped_sub t ht_dr
    rw [hresolve t (hex_store t ht_ex) u hu hid]
    have hcapeq : capRep default_capacity kept t = t :=
      capRep_not_mem _ _ t (hnot_kept t ht_ex
        (fun hk => hdisj_kd t hk ht_dr))
    rw [hcapeq, delRep_active]
    rw [if_neg (hnot_pre t ht_ex (fun hp => hdisj_pp t hp ht))]
    exact hex_active t ht_ex
  · -- rows outside the business's active set are untouched
    intro u hu hnotex
    refine (hmem u).mpr ⟨u, hu, ?_⟩
    have hcapeq : capRep default_capacity kept u = u :=
      capRep_not_mem _ _ u (by
        intro hmem2
        obtain ⟨p, hp, hpid⟩ := List.mem_map.mp hmem2
        have hp_ex : p ∈ existing := hkept_sub p hp
        have : p = u := hinj (hex_store p hp_ex) hu hpid
        exact hnotex (this ▸ hp_ex))
    rw [hcapeq]
    apply delRep_not_mem
    intro hmem2
    obtain ⟨p, hp, hpid⟩ := List.mem_map.mp hmem2
    have hp_ex : p ∈ existing := hdropped_sub p (hpre_sub p hp)
    have : p = u := hinj (hex_store p hp_ex) hu hpid
    exact hnotex (this ▸ hp_ex)

/-- C2 witness: the hypotheses of the amended bulk-shrink theorem are
satisfiable — five active tables, booking on table 5 only, resized to 3:
the call fails naming table 5. -/
theorem C2_bulk_shrink_flushed_witness :
    (bulk_update_tables
      [{ id := 101, business_id := 1, table_number := 1, capacity := 4,
         floor := 1, status := .available, is_active := true },
       { id := 102, business_id := 1, table_number := 2, capacity := 4,
         floor := 1, status := .available, is_active := true },
       { id := 103, business_id := 1, table_number := 3, capacity := 4,
         floor := 1, status := .available, is_active := true },
       { id := 104, business_id := 1, table_number := 4, capacity := 4,
         floor := 1, status := .available, is_active := true },
       { id := 105, business_id := 1, table_number := 5, capacity := 4,
         floor := 1, status := .available, is_active := true }]
      [{ id := 1, table_id := 105, tg_user_id := 7, guest_name := "g",
         num_guests := 2, booking_date := 10, booking_time := 0,
         duration_minutes := 60, is_cancelled := false }]
      3 1 3 4 900).error = some 5 :=
  (C2_bulk_shrink_flushed
    [{ id := 101, business_id := 1, table_number := 1, capacity := 4,
         floor := 1, status := .available, is_active := true },
       { id := 102, business_id := 1, table_number := 2, capacity := 4,
         floor := 1, status := .available, is_active := true },
       { id := 103, business_id := 1, table_number := 3, capacity := 4,
         floor := 1, status := .available, is_active := true },
       { id := 104, business_id := 1, table_number := 4, capacity := 4,
         floor := 1, status := .available, is_active := true },
       { id := 105, business_id := 1, table_number := 5, capacity := 4,
         floor := 1, status := .available, is_active := true }]
    [{ id := 1, table_id := 105, tg_user_id := 7, guest_name := "g",
         num_guests := 2, booking_date := 10, booking_time := 0,
         duration_minutes := 60, is_cancelled := false }]
    3 1 3 4 900
    [{ id := 101, business_id := 1, table_number := 1, capacity := 4,
         floor := 1, status := .available, is_active := true },
       { id := 102, business_id := 1, table_number := 2, capacity := 4,
         floor := 1, status := .available, is_active := true },
       { id := 103, business_id := 1, table_number := 3, capacity := 4,
         floor := 1, status := .available, is_active := true },
       { id := 104, business_id := 1, table_number := 4, capacity := 4,
         floor := 1, status := .available, is_active := true },
       { id := 105, business_id := 1, table_number := 5, capacity := 4,
         floor := 1, status := .available, is_active := true }]
    [{ id := 101, business_id := 1, table_number := 1, capacity := 4,
         floor := 1, status := .available, is_active := true },
       { id := 102, business_id := 1, table_number := 2, capacity := 4,
         floor := 1, status := .available, is_active := true },
       { id := 103, business_id := 1, table_number := 3, capacity := 4,
         floor := 1, status := .available, is_active := true }]
    [{ id := 104, business_id := 1, table_number := 4, capacity := 4,
         floor := 1, status := .available, is_active := true },
       { id := 105, business_id := 1, table_number := 5, capacity := 4,
         floor := 1, status := .available, is_active := true }]
    [{ id := 104, business_id := 1, table_number := 4, capacity := 4,
         floor := 1, status := .available, is_active := true }]
    [{ id := 105, business_id := 1, table_number := 5, capacity := 4,
         floor := 1, status := .available, is_active := true }]
    (by decide) (by decide) (by decide) (by decide) (by decide)
    (by decide) (by decide)
    { id := 105, business_id := 1, table_number := 5, capacity := 4,
         floor := 1, status := .available, is_active := true }
    (by decide)).1

end FastAPI
